import Mathlib

/-!
Verification development for `csv-split-rs`, a CSV splitting tool built on an
asynchronous io_uring write engine.  The definitions below are a shallow
embedding of the program's source:

* `CsvBuffer` and `CsvBuffer.write_row` embed the record encoder of
  `src/io.rs` (struct `CsvBuffer`); bytes are modelled as `Nat`, the buffer's
  written span as the list `out` (so the write cursor `pos` is `out.length`).
* `Cache` embeds the buffer-accounting behaviour of `BufferCache`,
  `CsvBuffers` and `IouWrites` of `src/io.rs` (pool size / in-flight count /
  buffers held by the driver).
* `IouWrites.recover_buffers` embeds the full-barrier completion drain of
  `src/io.rs`.
* `Decoder.detect_compression`, `Decoder.open_file` and `get_reader` embed the
  compression probing of `src/file.rs` and `src/main.rs`.
* `SplitState`, `stepNG`, `runNG`, `stepG`, `runGrouped` embed the split
  driver loop of `src/main.rs` (non-grouping and grouping branch).

Fallible operations (Rust panics / `Result::Err`) are modelled with `Option`.
-/

namespace CsvSplitRs

/-! ### Record buffer and encoder (src/io.rs, `CsvBuffer`) -/

/-- Model of `CsvBuffer` (src/io.rs lines 36-41): a fixed capacity `cap`
(`data.len()` in the source) together with the bytes written so far, `out`
(the prefix `data[0..pos]`); the write cursor `pos` is `out.length`. -/
structure CsvBuffer where
  cap : Nat
  out : List Nat
deriving DecidableEq

/-- Model of `CsvBuffer::zeroed` (src/io.rs lines 136-143): fresh buffer,
nothing written. -/
def CsvBuffer.zeroed (capacity : Nat) : CsvBuffer := ⟨capacity, []⟩

/-- Model of `CsvBuffer::pos` (src/io.rs lines 173-175). -/
def CsvBuffer.pos (b : CsvBuffer) : Nat := b.out.length

/-- Model of `CsvBuffer::remaining` (src/io.rs lines 145-147):
`self.data.len() - self.pos`. -/
def CsvBuffer.remaining (b : CsvBuffer) : Nat := b.cap - b.out.length

/-- Default field delimiter of `csv_core::Writer` (a comma). -/
def delimiterByte : Nat := 44

/-- Default record terminator of `csv_core::Writer` (a newline). -/
def terminatorByte : Nat := 10

/-- One call of `csv_core`'s `Writer::field` / `delimiter` / `terminator` on
the free space `data[pos..]`: `csv_core` copies as many bytes of `piece` as
fit into the remaining space and reports how many it wrote — it never writes
past the end of the slice and never fails.  Fields are modelled on the
unquoted path (bytes needing no quoting), which is the path the theorems
below restrict to. -/
def emit (cap : Nat) (out : List Nat) (piece : List Nat) : List Nat :=
  out ++ piece.take (cap - out.length)

/-- The field loop of `CsvBuffer::write_row` (src/io.rs lines 153-165): every
field but the last is followed by a delimiter, the last by the terminator. -/
def writeFields (cap : Nat) (out : List Nat) : List (List Nat) → List Nat
  | [] => out
  | [f] => emit cap (emit cap out f) [terminatorByte]
  | f :: f2 :: fs => writeFields cap (emit cap (emit cap out f) [delimiterByte]) (f2 :: fs)

/-- Model of `CsvBuffer::write_row` (src/io.rs lines 149-171).  The source
computes `row.len() - 1` on an unsigned zero when the record has no fields
and then indexes the record out of range, a panic in every build profile:
that case is `none`.  Otherwise the fields are emitted at the cursor and the
cursor advances by the number of bytes actually written. -/
def CsvBuffer.write_row (b : CsvBuffer) (row : List (List Nat)) : Option CsvBuffer :=
  match row with
  | [] => none
  | _ :: _ => some ⟨b.cap, writeFields b.cap b.out row⟩

/-- The delimiter- and terminator-framed encoding of one record, as described
by the spec's Record Buffer contract. -/
def encRow : List (List Nat) → List Nat
  | [] => []
  | [f] => f ++ [terminatorByte]
  | f :: f2 :: fs => f ++ delimiterByte :: encRow (f2 :: fs)

/-! ### Compression detection (src/file.rs, src/main.rs) -/

/-- Model of `CompressionType` (src/config.rs lines 8-14). -/
inductive CompressionType where
  | Gzip
  | Bzip
  | Detect
  | None
deriving DecidableEq

/-- A seekable input stream: its bytes and the current read position. -/
structure ByteStream where
  bytes : List Nat
  posn : Nat
deriving DecidableEq

/-- Model of `Decoder::detect_compression` (src/file.rs lines 292-303):
`read_exact` two bytes (an error if fewer are available), seek back to the
start, and match against the gzip magic `0x1F 0x8B` and the bzip magic
`b'B' b'Z'`. -/
def Decoder.detect_compression (s : ByteStream) : Option (CompressionType × ByteStream) :=
  match s.bytes.drop s.posn with
  | b0 :: b1 :: _ =>
      some (if b0 = 31 ∧ b1 = 139 then CompressionType.Gzip
            else if b0 = 66 ∧ b1 = 90 then CompressionType.Bzip
            else CompressionType.None,
            ⟨s.bytes, 0⟩)
  | _ => none

/-- Model of `Decoder::open` (src/file.rs lines 307-321): the resolved
compression mode paired with the stream handed to the decoder; `Detect` runs
the probe, any other mode is taken as-is. -/
def Decoder.open_file (bytes : List Nat) (compression : CompressionType) :
    Option (CompressionType × ByteStream) :=
  match compression with
  | CompressionType.Detect => Decoder.detect_compression ⟨bytes, 0⟩
  | c => some (c, ⟨bytes, 0⟩)

/-- The compression rewrite in `get_reader` (src/main.rs lines 21-24):
`None` is silently replaced by `Detect`. -/
def resolve_input_compression : CompressionType → CompressionType
  | CompressionType.None => CompressionType.Detect
  | c => c

/-- Model of `get_reader` (src/main.rs lines 17-28). -/
def get_reader (bytes : List Nat) (compression : CompressionType) :
    Option (CompressionType × ByteStream) :=
  Decoder.open_file bytes (resolve_input_compression compression)

/-! ### Buffer accounting (src/io.rs, `BufferCache` / `CsvBuffers` / `IouWrites`)

The counting model abstracts each buffer's contents away and tracks only
where the buffers live: `free` buffers in the pool (`CsvBuffers`),
`inflight` buffers owned by pending writes (`IouWrites.writes`), and
`driver` buffers held by the caller of `BufferCache` (the split driver's
`wtr`). -/

namespace Cache

/-- Where the fixed stock of buffers currently lives. -/
structure S where
  free : Nat
  inflight : Nat
  driver : Nat
deriving DecidableEq

/-- Model of `BufferCache::new` (src/io.rs lines 272-278): the pool is
created with `count` buffers, nothing is in flight, and the caller holds
nothing yet. -/
def new (limit : Nat) : S := ⟨limit, 0, 0⟩

/-- Model of `IouWrites::recover_buffers` (src/io.rs lines 247-260) at the
counting level: if anything is in flight, wait for every outstanding write
and push each recovered buffer back into the pool. -/
def recover (s : S) : S :=
  if 0 < s.inflight then ⟨s.free + s.inflight, 0, s.driver⟩ else s

/-- The final `buffers.pop().unwrap()` of `BufferCache::pop`
(src/io.rs line 285): panics (`none`) if the pool is still empty. -/
def popAvail (s : S) : Option S :=
  if 0 < s.free then some ⟨s.free - 1, s.inflight, s.driver + 1⟩ else none

/-- Model of `BufferCache::pop` (src/io.rs lines 280-286): drain completions
first when the pool is empty, then pop. -/
def pop (s : S) : Option S :=
  popAvail (if s.free = 0 then recover s else s)

/-- Model of `BufferCache::submit` (src/io.rs lines 288-295): the caller
hands one of its buffers over to a pending write (`none` if the caller holds
none — in Rust the move makes that impossible to even state). -/
def submit (s : S) : Option S :=
  if 0 < s.driver then some ⟨s.free, s.inflight + 1, s.driver - 1⟩ else none

/-- Model of `BufferCache::submit_and_pop` (src/io.rs lines 297-300). -/
def submit_and_pop (s : S) : Option S :=
  (submit s).bind pop

/-- The observable states of a `BufferCache` created with `new limit`:
the state right after `new`, and every state between two of the operations
`pop` / `submit` / `submit_and_pop`. -/
inductive Reachable (limit : Nat) : S → Prop where
  | new : Reachable limit (new limit)
  | pop {s t : S} : Reachable limit s → pop s = some t → Reachable limit t
  | submit {s t : S} : Reachable limit s → submit s = some t → Reachable limit t
  | submit_and_pop {s t : S} : Reachable limit s → submit_and_pop s = some t →
      Reachable limit t

end Cache

/-! ### Full-barrier completion drain at the buffer level (src/io.rs) -/

/-- Model of `impl From<IouWrite> for CsvBuffer` (src/io.rs lines 125-133):
the recovered buffer keeps its backing memory but gets a fresh writer and a
write cursor reset to 0. -/
def resetBuffer (b : CsvBuffer) : CsvBuffer := ⟨b.cap, []⟩

/-- Model of `IouWrites::recover_buffers` (src/io.rs lines 247-260) at the
buffer level: when at least one write is outstanding, every completion is
consumed, its buffer restored via `From<IouWrite>` and pushed into the pool;
with nothing in flight the call does nothing. -/
def IouWrites.recover_buffers (inflight pool : List CsvBuffer) :
    List CsvBuffer × List CsvBuffer :=
  if 0 < inflight.length then (pool ++ inflight.map resetBuffer, [])
  else (pool, inflight)

/-! ### The split driver (src/main.rs, `main`)

Records are abstract (`α`) with an abstract encoded byte size `sz`; a file is
the list of records written to it.  Completed files plus the active file form
the `Target Sequence`; the active buffer is the list of records encoded into
it plus its byte cursor `pos`.  Writes against one target are chained in
submission order, so submitting a buffer appends its records to the active
file.  Truncation by the unchecked encoder caps `pos` at `bufSize`
(sequential `csv_core` emits write `min` of the piece and the space left, so
a whole row advances the cursor by `min (sz r) (bufSize - pos)`). -/

/-- Driver-visible state: completed output files in creation order, the
records of the active (most recent) output file, the `on_row` counter, and
the active buffer's records and byte cursor. -/
structure SplitState (α : Type) where
  closed : List (List α)
  active : List α
  onRow : Nat
  buf : List α
  pos : Nat
deriving DecidableEq

/-- Model of `buffers.submit_and_pop(wtr)` (and of the final bare
`buffers.submit(wtr)`): the buffer's records are appended to the active
file, and the driver continues with a fresh (cursor-0) buffer. -/
def submitPop {α : Type} (s : SplitState α) : SplitState α :=
  { s with active := s.active ++ s.buf, buf := [], pos := 0 }

/-- Model of `on_file += 1; buffers.next(...); on_row = 0` (src/main.rs
lines 49-53, 64-67, 76-80): the active file is closed and a new empty one
becomes active. -/
def rotate {α : Type} (s : SplitState α) : SplitState α :=
  { s with closed := s.closed ++ [s.active], active := [], onRow := 0 }

/-- Model of `wtr.write_row(&row)` at the driver level: the record is encoded
into the active buffer, the cursor advancing by the bytes actually written. -/
def writeRec {α : Type} (bufSize : Nat) (sz : α → Nat) (s : SplitState α) (r : α) :
    SplitState α :=
  { s with buf := s.buf ++ [r], pos := min (s.pos + sz r) bufSize }

/-- Driver state at startup (src/main.rs lines 33-38): `SplitFileWrapper::new`
opens the first output file, the popped buffer is empty. -/
def initState {α : Type} : SplitState α := ⟨[], [], 0, [], 0⟩

/-- One iteration of the non-grouping loop (src/main.rs lines 72-85): rotate
checks before the row is written, then the row is written and `on_row`
incremented. -/
def stepNG {α : Type} (maxRows bufSize : Nat) (sz : α → Nat) (s : SplitState α) (r : α) :
    SplitState α :=
  let t := if s.onRow = maxRows ∨ bufSize - s.pos ≤ 1024 then
             (if s.onRow = maxRows then rotate (submitPop s) else submitPop s)
           else s
  let u := writeRec bufSize sz t r
  { u with onRow := u.onRow + 1 }

/-- The whole non-grouping branch (src/main.rs lines 71-90), including the
final `if wtr.pos() > 0 { buffers.submit(wtr); }`. -/
def runNG {α : Type} (maxRows bufSize : Nat) (sz : α → Nat) (rows : List α) :
    SplitState α :=
  let s := rows.foldl (stepNG maxRows bufSize sz) initState
  if 0 < s.pos then submitPop s else s

/-- The output files, in file order: completed files then the active file. -/
def files {α : Type} (s : SplitState α) : List (List α) := s.closed ++ [s.active]

/-- Concatenation of all output files' records, in file order then intra-file
order. -/
def flatRecords {α : Type} (s : SplitState α) : List α := (files s).flatten

/-- One mid-group record of the grouping loop (src/main.rs lines 61-68): the
row is written first, and if the capacity left afterwards is at or below the
margin the buffer is submitted and the driver rotates. -/
def stepGroupRow {α : Type} (bufSize : Nat) (sz : α → Nat) (s : SplitState α) (r : α) :
    SplitState α :=
  let t := writeRec bufSize sz s r
  if bufSize - t.pos ≤ 1024 then rotate (submitPop t) else t

/-- One group of the grouping loop (src/main.rs lines 40-70): the rotation
check runs before the group's first row, which is then written; the group's
remaining rows go through `stepGroupRow`.  Note the source never increments
`on_row` anywhere on this path. -/
def stepG {α : Type} (maxRows bufSize : Nat) (sz : α → Nat) (s : SplitState α)
    (g : List α) : SplitState α :=
  match g with
  | [] => s
  | first :: grest =>
    let t := if s.onRow = maxRows ∨ bufSize - s.pos ≤ 1024 then
               (if s.onRow = maxRows then rotate (submitPop s) else submitPop s)
             else s
    let u := writeRec bufSize sz t first
    grest.foldl (stepGroupRow bufSize sz) u

/-- Model of itertools' `group_by` on an already materialised record list:
maximal runs of records with equal keys, in input order. -/
def chunkRuns {α κ : Type} [DecidableEq κ] (key : α → κ) : List α → List (List α)
  | [] => []
  | [a] => [[a]]
  | a :: b :: rest =>
    match chunkRuns key (b :: rest) with
    | (c :: g) :: gs => if key a = key c then (a :: c :: g) :: gs else [a] :: (c :: g) :: gs
    | gs => [a] :: gs

/-- The whole grouping branch (src/main.rs lines 40-70).  Faithful to the
source: this branch has no end-of-input submit of the active buffer. -/
def runGrouped {α κ : Type} [DecidableEq κ] (key : α → κ) (maxRows bufSize : Nat)
    (sz : α → Nat) (rows : List α) : SplitState α :=
  (chunkRuns key rows).foldl (stepG maxRows bufSize sz) initState

/-- The concrete record stream of the grouping scenario: pre-sorted by its
key, with consecutive groups of sizes 4, 997 and 3. -/
def groupScenarioInput : List Nat :=
  List.replicate 4 0 ++ List.replicate 997 1 ++ List.replicate 3 2

/-- Invariant of the non-grouping loop after `k` records: `on_row` counts the
records of the current file (buffered plus already submitted), every closed
file holds exactly `max_rows` records, `k` splits into full files plus the
current file, `on_row` never exceeds `max_rows`, and once a record has been
written the buffer is non-empty (`pos ≥ 1`). -/
def Inv {α : Type} (maxRows k : Nat) (s : SplitState α) : Prop :=
  s.onRow = s.buf.length + s.active.length ∧
  (∀ f ∈ s.closed, f.length = maxRows) ∧
  k = s.closed.length * maxRows + s.onRow ∧
  s.onRow ≤ maxRows ∧
  (1 ≤ k → 1 ≤ s.onRow ∧ 1 ≤ s.pos)

/-! ## Proofs -/

/-! ### Encoder lemmas -/

lemma emit_of_fits (cap : Nat) (out piece : List Nat)
    (h : out.length + piece.length ≤ cap) : emit cap out piece = out ++ piece := by
  unfold emit
  rw [List.take_of_length_le (by omega)]

lemma writeFields_of_fits (cap : Nat) :
    ∀ (row : List (List Nat)) (out : List Nat), row ≠ [] →
      out.length + (encRow row).length ≤ cap →
      writeFields cap out row = out ++ encRow row
  | [], _, hne, _ => absurd rfl hne
  | [f], out, _, hfit => by
    have hlen : (encRow [f]).length = f.length + 1 := by simp [encRow]
    rw [hlen] at hfit
    unfold writeFields
    rw [emit_of_fits cap out f (by omega)]
    rw [emit_of_fits cap (out ++ f) [terminatorByte] (by simp; omega)]
    simp [encRow]
  | f :: f2 :: fs, out, _, hfit => by
    have hlen : (encRow (f :: f2 :: fs)).length
        = f.length + 1 + (encRow (f2 :: fs)).length := by
      simp [encRow]; omega
    rw [hlen] at hfit
    unfold writeFields
    rw [emit_of_fits cap out f (by omega)]
    rw [emit_of_fits cap (out ++ f) [delimiterByte] (by simp; omega)]
    rw [writeFields_of_fits cap (f2 :: fs) (out ++ f ++ [delimiterByte]) (by simp) (by simp; omega)]
    simp [encRow]

/-! ### Buffer accounting lemmas -/

namespace Cache

lemma recover_sum (s : S) :
    (recover s).free + (recover s).inflight + (recover s).driver
      = s.free + s.inflight + s.driver := by
  unfold recover
  split <;> simp

lemma popAvail_sum {s t : S} (h : popAvail s = some t) :
    t.free + t.inflight + t.driver = s.free + s.inflight + s.driver := by
  unfold popAvail at h
  split at h
  · cases h
    simp
    omega
  · cases h

lemma pop_sum {s t : S} (h : pop s = some t) :
    t.free + t.inflight + t.driver = s.free + s.inflight + s.driver := by
  unfold pop at h
  rcases popAvail_sum h with hsum
  rw [hsum]
  split <;> simp [recover_sum]

lemma submit_sum {s t : S} (h : submit s = some t) :
    t.free + t.inflight + t.driver = s.free + s.inflight + s.driver := by
  unfold submit at h
  split at h
  · cases h
    simp
    omega
  · cases h

lemma submit_and_pop_sum {s t : S} (h : submit_and_pop s = some t) :
    t.free + t.inflight + t.driver = s.free + s.inflight + s.driver := by
  unfold submit_and_pop at h
  cases hsub : submit s with
  | none => rw [hsub] at h; cases h
  | some u =>
    rw [hsub] at h
    simp only [Option.some_bind] at h
    rw [pop_sum h, submit_sum hsub]

end Cache

/-! ### Non-grouping loop lemmas -/

lemma stepNG_rotate {α : Type} {maxRows bufSize : Nat} {sz : α → Nat}
    {s : SplitState α} {r : α} (h : s.onRow = maxRows) :
    stepNG maxRows bufSize sz s r
      = ⟨s.closed ++ [s.active ++ s.buf], [], 1, [r], min (sz r) bufSize⟩ := by
  unfold stepNG rotate submitPop writeRec
  rw [if_pos (Or.inl h), if_pos h]
  simp

lemma stepNG_cap {α : Type} {maxRows bufSize : Nat} {sz : α → Nat}
    {s : SplitState α} {r : α} (h1 : ¬s.onRow = maxRows)
    (h2 : bufSize - s.pos ≤ 1024) :
    stepNG maxRows bufSize sz s r
      = ⟨s.closed, s.active ++ s.buf, s.onRow + 1, [r], min (sz r) bufSize⟩ := by
  unfold stepNG submitPop writeRec
  rw [if_pos (Or.inr h2), if_neg h1]
  simp

lemma stepNG_plain {α : Type} {maxRows bufSize : Nat} {sz : α → Nat}
    {s : SplitState α} {r : α} (h1 : ¬s.onRow = maxRows)
    (h2 : ¬bufSize - s.pos ≤ 1024) :
    stepNG maxRows bufSize sz s r
      = ⟨s.closed, s.active, s.onRow + 1, s.buf ++ [r], min (s.pos + sz r) bufSize⟩ := by
  unfold stepNG writeRec
  rw [if_neg (by rw [not_or]; exact ⟨h1, h2⟩)]

lemma stepNG_inv {α : Type} {maxRows bufSize k : Nat} {sz : α → Nat}
    {s : SplitState α} {r : α} (hm : 1 ≤ maxRows) (hB : 1 ≤ bufSize)
    (hr : 1 ≤ sz r) (h : Inv maxRows k s) :
    Inv maxRows (k + 1) (stepNG maxRows bufSize sz s r) := by
  obtain ⟨h1, h2, h3, h4, h5⟩ := h
  by_cases hrow : s.onRow = maxRows
  · rw [stepNG_rotate hrow]
    unfold Inv
    dsimp only
    refine ⟨by simp, ?_, ?_, by omega, fun _ => ⟨by omega, by omega⟩⟩
    · intro f hf
      rcases List.mem_append.mp hf with hf | hf
      · exact h2 f hf
      · rw [List.mem_singleton] at hf
        subst hf
        rw [List.length_append]
        omega
    · rw [List.length_append, List.length_singleton, Nat.add_mul, Nat.one_mul]
      omega
  · by_cases hcap : bufSize - s.pos ≤ 1024
    · rw [stepNG_cap hrow hcap]
      unfold Inv
      dsimp only
      refine ⟨by simp [List.length_append]; omega, h2, by omega, by omega,
        fun _ => ⟨by omega, by omega⟩⟩
    · rw [stepNG_plain hrow hcap]
      unfold Inv
      dsimp only
      refine ⟨by simp [List.length_append]; omega, h2, by omega, by omega,
        fun _ => ⟨by omega, by omega⟩⟩

lemma foldNG_inv {α : Type} (maxRows bufSize : Nat) (sz : α → Nat)
    (hm : 1 ≤ maxRows) (hB : 1 ≤ bufSize) (rs : List α) :
    ∀ (k : Nat) (s : SplitState α), (∀ r ∈ rs, 1 ≤ sz r) → Inv maxRows k s →
      Inv maxRows (k + rs.length) (rs.foldl (stepNG maxRows bufSize sz) s) := by
  induction rs with
  | nil => intro k s _ h; simpa using h
  | cons r rs ih =>
    intro k s hsz h
    have hstep := stepNG_inv hm hB (hsz r (List.mem_cons_self r rs)) h
    have hrec := ih (k + 1) (stepNG maxRows bufSize sz s r)
      (fun x hx => hsz x (List.mem_cons_of_mem r hx)) hstep
    rw [List.foldl_cons]
    rw [List.length_cons, show k + (rs.length + 1) = (k + 1) + rs.length from by omega]
    exact hrec

/-! ### Grouping-branch lemmas -/

lemma chunkRuns_flatten {α κ : Type} [DecidableEq κ] (key : α → κ) :
    ∀ l : List α, (chunkRuns key l).flatten = l
  | [] => rfl
  | [_] => by simp [chunkRuns]
  | a :: b :: rest => by
    have ih := chunkRuns_flatten key (b :: rest)
    unfold chunkRuns
    cases h : chunkRuns key (b :: rest) with
    | nil => rw [h] at ih; simp at ih
    | cons g gs =>
      rw [h] at ih
      cases g with
      | nil => simpa using ih
      | cons c g2 =>
        by_cases hk : key a = key c
        · simp only [hk, if_true, List.flatten_cons] at ih ⊢
          simpa using ih
        · simp only [hk, if_false, List.flatten_cons] at ih ⊢
          simpa using ih

lemma foldGroupRow_untriggered {α : Type} (bufSize : Nat) (sz : α → Nat) :
    ∀ (rs : List α) (s : SplitState α),
      s.pos + (rs.map sz).sum + 1025 ≤ bufSize →
      rs.foldl (stepGroupRow bufSize sz) s
        = { s with buf := s.buf ++ rs, pos := s.pos + (rs.map sz).sum }
  | [], s, _ => by simp
  | r :: rs, s, hcap => by
    have hsum : (List.map sz (r :: rs)).sum = sz r + (rs.map sz).sum := by simp
    rw [hsum] at hcap
    have hmin : min (s.pos + sz r) bufSize = s.pos + sz r := by omega
    have hstep : stepGroupRow bufSize sz s r
        = { s with buf := s.buf ++ [r], pos := s.pos + sz r } := by
      unfold stepGroupRow writeRec
      rw [hmin, if_neg (by simp; omega)]
    rw [List.foldl_cons, hstep,
      foldGroupRow_untriggered bufSize sz rs _ (by simp; omega)]
    simp
    omega

lemma stepG_untriggered {α : Type} (maxRows bufSize : Nat) (sz : α → Nat)
    (g : List α) (s : SplitState α) (hm : 1 ≤ maxRows) (hrow : s.onRow = 0)
    (hcap : s.pos + (g.map sz).sum + 1025 ≤ bufSize) :
    stepG maxRows bufSize sz s g
      = { s with buf := s.buf ++ g, pos := s.pos + (g.map sz).sum } := by
  cases g with
  | nil => simp [stepG]
  | cons first grest =>
    have hsum : (List.map sz (first :: grest)).sum
        = sz first + (grest.map sz).sum := by simp
    rw [hsum] at hcap
    simp only [stepG]
    rw [if_neg (by rw [hrow]; simp; omega)]
    have hmin : min (s.pos + sz first) bufSize = s.pos + sz first := by omega
    simp only [writeRec]
    rw [hmin, foldGroupRow_untriggered bufSize sz grest _ (by simp; omega)]
    simp
    omega

lemma foldG_untriggered {α : Type} (maxRows bufSize : Nat) (sz : α → Nat) :
    ∀ (gs : List (List α)) (s : SplitState α), 1 ≤ maxRows → s.onRow = 0 →
      s.pos + (gs.flatten.map sz).sum + 1025 ≤ bufSize →
      gs.foldl (stepG maxRows bufSize sz) s
        = { s with buf := s.buf ++ gs.flatten, pos := s.pos + (gs.flatten.map sz).sum }
  | [], s, _, _, _ => by simp
  | g :: gs, s, hm, hrow, hcap => by
    have hsum : ((g :: gs).flatten.map sz).sum
        = (g.map sz).sum + (gs.flatten.map sz).sum := by simp
    rw [hsum] at hcap
    rw [List.foldl_cons, stepG_untriggered maxRows bufSize sz g s hm hrow (by omega)]
    rw [foldG_untriggered maxRows bufSize sz gs
      { s with buf := s.buf ++ g, pos := s.pos + (g.map sz).sum } hm
      (by simpa using hrow)
      (by show s.pos + (g.map sz).sum + (gs.flatten.map sz).sum + 1025 ≤ bufSize
          omega)]
    simp [List.append_assoc, Nat.add_assoc]

/-! ### Claim theorems -/

/-- Claim C2, counterexample to the claim as stated: right after
`BufferCache::new(2, ...)` — an observable instant of the cache's lifetime —
the driver holds no buffer yet, and
`free_pool_count + in_flight_count + 1 = 2 + 0 + 1 ≠ 2`, the concurrency
limit. -/
theorem buffer_accounting_after_new_cex :
    Cache.Reachable 2 (Cache.new 2) ∧
      (Cache.new 2).free + (Cache.new 2).inflight + 1 ≠ 2 :=
  ⟨Cache.Reachable.new, by decide⟩

/-- Claim C2 (amended): at every observable instant of the Buffer Cache's
lifetime — after `new`, and between any two of its operations `pop`, `submit`
and `submit_and_pop` — the number of free-pool buffers plus the number of
in-flight pending writes plus the number of buffers currently held by the
driver equals the concurrency limit passed to `BufferCache::new`; in
particular `free + in_flight + 1 = limit` at every instant at which the
driver holds exactly one buffer. -/
theorem buffer_accounting_invariant (limit : Nat) (s : Cache.S)
    (h : Cache.Reachable limit s) :
    s.free + s.inflight + s.driver = limit := by
  induction h with
  | new => rfl
  | pop _ hop ih => rw [Cache.pop_sum hop, ih]
  | submit _ hop ih => rw [Cache.submit_sum hop, ih]
  | submit_and_pop _ hop ih => rw [Cache.submit_and_pop_sum hop, ih]

/-- Witness for C2: the state reached from `new 3` by one `pop` (pool 2,
nothing in flight, driver holding 1) satisfies the accounting equation. -/
theorem buffer_accounting_invariant_witness :
    (Cache.S.mk 2 0 1).free + (Cache.S.mk 2 0 1).inflight + (Cache.S.mk 2 0 1).driver = 3 :=
  buffer_accounting_invariant 3 (Cache.S.mk 2 0 1)
    (Cache.Reachable.pop Cache.Reachable.new (by decide))

/-- Claim C6: with at least one write outstanding, `IouWrites::recover_buffers`
consumes every outstanding completion, returning each buffer to the pool
restored to a fresh state with its write cursor reset to 0; afterwards the
in-flight count is 0 and the pool has regained exactly the number of buffers
that were in flight. -/
theorem recover_buffers_spec (inflight pool : List CsvBuffer)
    (h : 0 < inflight.length) :
    (IouWrites.recover_buffers inflight pool).2.length = 0 ∧
    (IouWrites.recover_buffers inflight pool).1.length
      = pool.length + inflight.length ∧
    ∀ b ∈ (IouWrites.recover_buffers inflight pool).1.drop pool.length,
      b.pos = 0 := by
  unfold IouWrites.recover_buffers
  rw [if_pos h]
  refine ⟨rfl, by simp, ?_⟩
  intro b hb
  rw [List.drop_left] at hb
  rcases List.mem_map.mp hb with ⟨a, _, rfl⟩
  rfl

/-- Witness for C6: one in-flight buffer with two written bytes, empty pool. -/
theorem recover_buffers_spec_witness :
    0 < [CsvBuffer.mk 8 [1, 2]].length ∧
      ((IouWrites.recover_buffers [CsvBuffer.mk 8 [1, 2]] []).2.length = 0 ∧
       (IouWrites.recover_buffers [CsvBuffer.mk 8 [1, 2]] []).1.length
         = ([] : List CsvBuffer).length + [CsvBuffer.mk 8 [1, 2]].length ∧
       ∀ b ∈ (IouWrites.recover_buffers [CsvBuffer.mk 8 [1, 2]] []).1.drop
           ([] : List CsvBuffer).length, b.pos = 0) :=
  ⟨by decide, recover_buffers_spec [CsvBuffer.mk 8 [1, 2]] [] (by decide)⟩

/-- Claim C7, counterexample to the claim as stated: violating the
precondition (a record whose encoded size exceeds the remaining capacity)
does not fail fatally — `write_row` on a buffer of capacity 2 with the row
`["ABC"]` (encoded size 4) succeeds, silently truncating the record to the 2
bytes that fit. -/
theorem write_row_overflow_cex :
    CsvBuffer.remaining (CsvBuffer.mk 2 []) < (encRow [[65, 66, 67]]).length ∧
      CsvBuffer.write_row (CsvBuffer.mk 2 []) [[65, 66, 67]]
        = some (CsvBuffer.mk 2 [65, 66]) := by
  decide

/-- Claim C7 (amended): `write_row` encodes one record's fields, delimiter-
and terminator-framed, directly into the buffer at the current cursor and
returns the new remaining capacity, under the precondition that the record's
encoded size does not exceed the remaining capacity; the encoder performs no
bounds check, but a caller violating the precondition gets a silently
truncated record (the bytes that do not fit are dropped), not a fatal
out-of-range access. -/
theorem write_row_contract (b : CsvBuffer) (row : List (List Nat))
    (hrow : row ≠ []) (hwf : b.out.length ≤ b.cap)
    (hfit : (encRow row).length ≤ b.remaining) :
    b.write_row row = some (CsvBuffer.mk b.cap (b.out ++ encRow row)) ∧
    (CsvBuffer.mk b.cap (b.out ++ encRow row)).remaining
      = b.remaining - (encRow row).length ∧
    (CsvBuffer.mk b.cap (b.out ++ encRow row)).pos
      = b.pos + (encRow row).length := by
  unfold CsvBuffer.remaining at hfit
  refine ⟨?_, ?_, ?_⟩
  · cases row with
    | nil => exact absurd rfl hrow
    | cons f fs =>
      unfold CsvBuffer.write_row
      rw [writeFields_of_fits b.cap (f :: fs) b.out (by simp) (by omega)]
  · simp only [CsvBuffer.remaining, List.length_append]
    omega
  · simp [CsvBuffer.pos]

/-- Witness for C7: the two-field record `["A", "B"]` written into a fresh
buffer of capacity 10. -/
theorem write_row_contract_witness :
    (([[65], [66]] : List (List Nat)) ≠ [] ∧
       (CsvBuffer.mk 10 []).out.length ≤ (CsvBuffer.mk 10 []).cap ∧
       (encRow [[65], [66]]).length ≤ (CsvBuffer.mk 10 []).remaining) ∧
      ((CsvBuffer.mk 10 []).write_row [[65], [66]]
          = some (CsvBuffer.mk 10 ([] ++ encRow [[65], [66]])) ∧
       (CsvBuffer.mk 10 ([] ++ encRow [[65], [66]])).remaining
          = (CsvBuffer.mk 10 []).remaining - (encRow [[65], [66]]).length ∧
       (CsvBuffer.mk 10 ([] ++ encRow [[65], [66]])).pos
          = (CsvBuffer.mk 10 []).pos + (encRow [[65], [66]]).length) :=
  ⟨⟨by decide, by decide, by decide⟩,
    write_row_contract (CsvBuffer.mk 10 []) [[65], [66]] (by decide) (by decide) (by decide)⟩

/-- Claim C10: `CsvBuffer::write_row` is not total on records with zero
fields — the source computes `row.len() - 1` on an unsigned zero, so the
call panics for every buffer, no matter how much capacity remains. -/
theorem write_row_zero_fields (b : CsvBuffer) : b.write_row [] = none := rfl

/-- Claim C8: on any input stream of at least two bytes, detect mode resolves
to gzip for streams beginning `0x1F 0x8B`, to bzip for streams beginning
`'B' 'Z'`, and to uncompressed otherwise; in every case the stream's read
position after the probe is offset 0, the start of the stream. -/
theorem detect_compression_spec (b0 b1 : Nat) (rest : List Nat) :
    Decoder.detect_compression ⟨b0 :: b1 :: rest, 0⟩ =
      some ((if b0 = 31 ∧ b1 = 139 then CompressionType.Gzip
             else if b0 = 66 ∧ b1 = 90 then CompressionType.Bzip
             else CompressionType.None),
            ⟨b0 :: b1 :: rest, 0⟩) := rfl

/-- Claim C9: `get_reader` silently replaces the default compression `None`
with `Detect`, so the first two bytes of every input are probed; opening any
input shorter than two bytes (an empty file included) therefore fails with
an error instead of producing zero output files. -/
theorem get_reader_short_input (bytes : List Nat) (h : bytes.length < 2) :
    resolve_input_compression CompressionType.None = CompressionType.Detect ∧
      get_reader bytes CompressionType.None = none := by
  refine ⟨rfl, ?_⟩
  cases bytes with
  | nil => rfl
  | cons a t =>
    cases t with
    | nil => rfl
    | cons b u => simp at h; omega

/-- Witness for C9: the empty input file. -/
theorem get_reader_short_input_witness :
    ([] : List Nat).length < 2 ∧
      (resolve_input_compression CompressionType.None = CompressionType.Detect ∧
       get_reader [] CompressionType.None = none) :=
  ⟨by decide, get_reader_short_input [] (by decide)⟩

/-- Claim C1, evaluation at the failing input: in grouping mode the records
left in the active buffer at end of input are never submitted, so for a
single-record input the concatenation of all output files' records is empty
and does not equal the input sequence — records are lost. -/
theorem conservation_grouping_cex :
    flatRecords (runGrouped id 1000 4096 (fun _ => 1) [7]) = [] ∧
      ([7] : List Nat) ≠ [] := by
  decide

/-- Claim C4: contrary to the claimed scenario (groups of sizes [4, 997, 3]
and `max_rows = 1000` yielding two files of 1001 and 3 records), whenever
`max_rows ≥ 1` and the buffer is large enough that the capacity trigger never
fires, the grouping branch writes nothing at all: it never increments
`on_row`, so the row-count rotation never fires, and it never submits the
active buffer at end of input — every output file stays empty and all
records are left in the never-submitted buffer. -/
theorem grouping_never_writes {α κ : Type} [DecidableEq κ] (key : α → κ)
    (maxRows bufSize : Nat) (sz : α → Nat) (rows : List α) (hm : 1 ≤ maxRows)
    (hcap : (rows.map sz).sum + 1025 ≤ bufSize) :
    (runGrouped key maxRows bufSize sz rows).closed = [] ∧
    (runGrouped key maxRows bufSize sz rows).active = [] ∧
    (runGrouped key maxRows bufSize sz rows).buf = rows ∧
    (runGrouped key maxRows bufSize sz rows).onRow = 0 := by
  unfold runGrouped
  rw [foldG_untriggered maxRows bufSize sz (chunkRuns key rows) initState hm rfl
    (by rw [show (chunkRuns key rows).flatten = rows from chunkRuns_flatten key rows]
        simpa [initState] using hcap)]
  simp [initState, chunkRuns_flatten key rows]

/-- Witness for C4, at the claimed scenario itself: groups of sizes
[4, 997, 3] (1004 unit-size records), `max_rows = 1000`, buffer capacity
4096 (the capacity trigger can never fire). -/
theorem grouping_never_writes_witness :
    (1 ≤ 1000 ∧ (groupScenarioInput.map (fun _ => 1)).sum + 1025 ≤ 4096) ∧
      ((runGrouped id 1000 4096 (fun _ => 1) groupScenarioInput).closed = [] ∧
       (runGrouped id 1000 4096 (fun _ => 1) groupScenarioInput).active = [] ∧
       (runGrouped id 1000 4096 (fun _ => 1) groupScenarioInput).buf
         = groupScenarioInput ∧
       (runGrouped id 1000 4096 (fun _ => 1) groupScenarioInput).onRow = 0) :=
  ⟨⟨by decide,
     by simp only [groupScenarioInput, List.map_append, List.map_replicate,
          List.sum_append, List.sum_replicate, smul_eq_mul]
        norm_num⟩,
    grouping_never_writes id 1000 4096 (fun _ => 1) groupScenarioInput (by decide)
      (by simp only [groupScenarioInput, List.map_append, List.map_replicate,
            List.sum_append, List.sum_replicate, smul_eq_mul]
          norm_num)⟩

/-- Claim C5, evaluation at the failing input: at end of input in grouping
mode the active buffer holds written bytes (`pos > 0`), yet it is not
submitted — no output file (closed or active) received its record. -/
theorem final_flush_grouping_cex :
    0 < (runGrouped id 1000 4096 (fun _ => 1) [7]).pos ∧
      (runGrouped id 1000 4096 (fun _ => 1) [7]).active = [] ∧
      (runGrouped id 1000 4096 (fun _ => 1) [7]).closed = [] := by
  decide

/-- Claim C3 (amended): for every nonempty input with no grouping key
configured, `max_rows ≥ 1`, nonzero buffer capacity and records of nonzero
encoded size, every output file except the last contains exactly `max_rows`
records, the last file contains `total_rows mod max_rows` records (or
`max_rows` when `total_rows` is evenly divisible by `max_rows`), and the
number of output files is `⌈total_rows / max_rows⌉`; the empty input instead
yields a single empty output file. -/
theorem non_grouping_row_counts {α : Type} (maxRows bufSize : Nat) (sz : α → Nat)
    (rows : List α) (hm : 1 ≤ maxRows) (hB : 1 ≤ bufSize)
    (hne : 1 ≤ rows.length) (hsz : ∀ r ∈ rows, 1 ≤ sz r) :
    (∀ f ∈ (files (runNG maxRows bufSize sz rows)).dropLast, f.length = maxRows) ∧
    ((files (runNG maxRows bufSize sz rows)).getLastD []).length
      = (if rows.length % maxRows = 0 then maxRows else rows.length % maxRows) ∧
    (files (runNG maxRows bufSize sz rows)).length
      = (rows.length + maxRows - 1) / maxRows := by
  have h0 : Inv maxRows 0 (initState (α := α)) :=
    ⟨rfl, by simp [initState], by simp [initState], Nat.zero_le _,
      fun h => absurd h (by decide)⟩
  have hInv := foldNG_inv maxRows bufSize sz hm hB rows 0 initState hsz h0
  rw [Nat.zero_add] at hInv
  set s := rows.foldl (stepNG maxRows bufSize sz) initState with hs
  obtain ⟨h1, h2, h3, h4, h5⟩ := hInv
  obtain ⟨hrow1, hpos1⟩ := h5 hne
  have hrun : runNG maxRows bufSize sz rows = submitPop s := by
    unfold runNG
    rw [← hs]
    exact if_pos (by omega)
  have hfiles : files (submitPop s) = s.closed ++ [s.active ++ s.buf] := rfl
  rw [hrun, hfiles]
  have hmod : rows.length % maxRows = s.onRow % maxRows := by
    rw [h3, Nat.mul_comm s.closed.length maxRows, Nat.mul_add_mod]
  refine ⟨?_, ?_, ?_⟩
  · rw [List.dropLast_concat]
    exact h2
  · rw [List.getLastD_concat, List.length_append]
    by_cases honrow : s.onRow = maxRows
    · have hmod2 : rows.length % maxRows = 0 := by
        rw [hmod, honrow, Nat.mod_self]
      rw [if_pos hmod2]
      omega
    · have hmod2 : rows.length % maxRows = s.onRow := by
        rw [hmod, Nat.mod_eq_of_lt (by omega)]
      rw [if_neg (by omega)]
      omega
  · have hdiv : rows.length + maxRows - 1
        = (s.onRow - 1) + maxRows * (s.closed.length + 1) := by
      rw [Nat.mul_succ, Nat.mul_comm maxRows s.closed.length]
      omega
    rw [hdiv, Nat.add_mul_div_left _ _ (by omega : 0 < maxRows),
      Nat.div_eq_of_lt (by omega)]
    simp

/-- Witness for C3: 2500 unit-size records, `max_rows = 1000`, buffer
capacity 4096 — the claimed 2500-record scenario. -/
theorem non_grouping_row_counts_witness :
    (1 ≤ 1000 ∧ 1 ≤ 4096 ∧ 1 ≤ (List.replicate 2500 0).length ∧
       ∀ r ∈ List.replicate 2500 0, 1 ≤ (fun _ : Nat => 1) r) ∧
      ((∀ f ∈ (files (runNG 1000 4096 (fun _ => 1) (List.replicate 2500 0))).dropLast,
          f.length = 1000) ∧
       ((files (runNG 1000 4096 (fun _ => 1) (List.replicate 2500 0))).getLastD []).length
         = (if (List.replicate 2500 0).length % 1000 = 0 then 1000
            else (List.replicate 2500 0).length % 1000) ∧
       (files (runNG 1000 4096 (fun _ => 1) (List.replicate 2500 0))).length
         = ((List.replicate 2500 0).length + 1000 - 1) / 1000) :=
  ⟨⟨by decide, by decide, by simp only [List.length_replicate]; omega, fun r _ => le_refl 1⟩,
    non_grouping_row_counts 1000 4096 (fun _ => 1) (List.replicate 2500 0)
      (by decide) (by decide) (by simp only [List.length_replicate]; omega)
      (fun r _ => le_refl 1)⟩

/-- Claim C3, counterexample to the claim as stated: for the empty input
(0 records, evenly divisible by `max_rows = 1000`) the claim predicates that
the last output file holds `max_rows` records, but the single output file
created at startup holds 0 records. -/
theorem row_counts_empty_input_cex :
    (0 : Nat) % 1000 = 0 ∧
      ((files (runNG 1000 4096 (fun _ => 1) ([] : List Nat))).getLastD []).length = 0 ∧
      (0 : Nat) ≠ 1000 := by
  decide

end CsvSplitRs
